import Mathlib

/-
  Verification development for the ADAVERSE staking dashboard.

  The TypeScript source is shallowly embedded in Lean 4.  JavaScript
  numbers are idealised as exact rationals (`ℚ`) extended with the three
  non-finite values `NaN`, `Infinity` and `-Infinity`; IEEE-754 rounding of
  intermediate products is not modelled.  Strings are Lean `String`s
  (JavaScript's UTF-16 code-unit view is identified with the character
  view).  The string-to-number coercions `Number(...)` and
  `parseFloat(...)` of the source are embedded as executable parsers
  (`jsNumber`, `parseFloat`) following the ECMAScript grammars
  (StringNumericLiteral resp. the parseFloat prefix grammar), and
  `x.toFixed(6)`, `Math.floor(x).toString()`, `parseInt(x, 10)` are
  embedded as executable printers over the same idealisation.

  Asynchronous provider calls (wallet extension, Blockfrost indexer) are
  external collaborators; each embedded operation takes their responses as
  explicit oracle arguments and returns the resulting component state,
  together with an event trace where the order of provider calls matters.
-/

/-! ## JavaScript numbers, idealised -/

/-- A JavaScript number: `NaN`, `Infinity`, `-Infinity`, or a finite value
(idealised as an exact rational). -/
inductive JSNum : Type
  | nan : JSNum
  | inf : JSNum
  | negInf : JSNum
  | num : ℚ → JSNum
deriving DecidableEq

/-- `isNaN(x)`. -/
def jsIsNaN : JSNum → Bool
  | JSNum.nan => true
  | _ => false

/-- The JavaScript `<` comparison (false whenever an operand is `NaN`). -/
def jsLt : JSNum → JSNum → Bool
  | JSNum.nan, _ => false
  | _, JSNum.nan => false
  | JSNum.negInf, JSNum.negInf => false
  | JSNum.negInf, _ => true
  | _, JSNum.negInf => false
  | JSNum.inf, _ => false
  | JSNum.num _, JSNum.inf => true
  | JSNum.num a, JSNum.num b => decide (a < b)

/-- The JavaScript `<=` comparison (false whenever an operand is `NaN`). -/
def jsLe : JSNum → JSNum → Bool
  | JSNum.nan, _ => false
  | _, JSNum.nan => false
  | JSNum.negInf, _ => true
  | JSNum.inf, JSNum.inf => true
  | JSNum.inf, _ => false
  | JSNum.num _, JSNum.inf => true
  | JSNum.num _, JSNum.negInf => false
  | JSNum.num a, JSNum.num b => decide (a ≤ b)

/-- JavaScript division, used by `totalTransactions / ITEMS_PER_PAGE`. -/
def jsDiv : JSNum → JSNum → JSNum
  | JSNum.nan, _ => JSNum.nan
  | _, JSNum.nan => JSNum.nan
  | JSNum.inf, JSNum.inf => JSNum.nan
  | JSNum.inf, JSNum.negInf => JSNum.nan
  | JSNum.negInf, JSNum.inf => JSNum.nan
  | JSNum.negInf, JSNum.negInf => JSNum.nan
  | JSNum.inf, JSNum.num b => if 0 ≤ b then JSNum.inf else JSNum.negInf
  | JSNum.negInf, JSNum.num b => if 0 ≤ b then JSNum.negInf else JSNum.inf
  | JSNum.num _, JSNum.inf => JSNum.num 0
  | JSNum.num _, JSNum.negInf => JSNum.num 0
  | JSNum.num a, JSNum.num b =>
    if b = 0 then
      if a = 0 then JSNum.nan else if 0 < a then JSNum.inf else JSNum.negInf
    else JSNum.num (a / b)

/-- `Math.ceil`. -/
def jsCeil : JSNum → JSNum
  | JSNum.nan => JSNum.nan
  | JSNum.inf => JSNum.inf
  | JSNum.negInf => JSNum.negInf
  | JSNum.num q => JSNum.num (⌈q⌉ : ℤ)

/-- `Math.max` on two arguments (`NaN` absorbs). -/
def jsMax : JSNum → JSNum → JSNum
  | JSNum.nan, _ => JSNum.nan
  | _, JSNum.nan => JSNum.nan
  | JSNum.inf, _ => JSNum.inf
  | _, JSNum.inf => JSNum.inf
  | JSNum.negInf, y => y
  | x, JSNum.negInf => x
  | JSNum.num a, JSNum.num b => JSNum.num (max a b)

/-! ## Characters, digits, whitespace -/

/-- Decimal digit test (`'0'..'9'`). -/
def isDig (c : Char) : Bool := 47 < c.toNat && c.toNat < 58

/-- JavaScript string whitespace (space, tab, LF, CR, VT, FF). -/
def isWS (c : Char) : Bool :=
  c.toNat == 32 || c.toNat == 9 || c.toNat == 10 || c.toNat == 13 ||
  c.toNat == 11 || c.toNat == 12

/-- Numeric value of a hexadecimal digit (`99` for non-digits, so that
`hexDigVal c < b` is the base-`b` digit test). -/
def hexDigVal (c : Char) : Nat :=
  if isDig c then c.toNat - 48
  else if 96 < c.toNat && c.toNat < 103 then c.toNat - 87
  else if 64 < c.toNat && c.toNat < 71 then c.toNat - 55
  else 99

/-- Value of a list of decimal digits, most significant first. -/
def digitsToNat (l : List Char) : Nat :=
  l.foldl (fun a c => 10 * a + (c.toNat - 48)) 0

/-- Value of a list of base-`b` digits, most significant first. -/
def radixToNat (b : Nat) (l : List Char) : Nat :=
  l.foldl (fun a c => b * a + hexDigVal c) 0

/-- The character of a decimal digit. -/
def digitChar : Nat → Char
  | 0 => '0' | 1 => '1' | 2 => '2' | 3 => '3' | 4 => '4'
  | 5 => '5' | 6 => '6' | 7 => '7' | 8 => '8' | _ => '9'

/-- Decimal digits of `n`, most significant first (fuel-structured so that
it reduces in the kernel; `natDigitList` supplies sufficient fuel). -/
def natDigitsAux : Nat → Nat → List Char
  | 0, _ => []
  | fuel + 1, n =>
    if n < 10 then [digitChar n]
    else natDigitsAux fuel (n / 10) ++ [digitChar (n % 10)]

/-- Decimal digit string of a natural number. -/
def natDigitList (n : Nat) : List Char := natDigitsAux (n + 1) n

/-- `n.toString()` for a natural number. -/
def natToString (n : Nat) : String := String.mk (natDigitList n)

/-- `n.toString()` for an integer-valued JavaScript number. -/
def intToString (n : ℤ) : String :=
  if n < 0 then "-" ++ natToString n.natAbs else natToString n.toNat

/-! ## String scanning helpers -/

/-- Longest all-digit head of a list together with the rest. -/
def spanDig : List Char → List Char × List Char
  | [] => ([], [])
  | c :: r =>
    if isDig c then
      let p := spanDig r
      (c :: p.1, p.2)
    else ([], c :: r)

/-- Drop leading JavaScript whitespace. -/
def dropWS : List Char → List Char
  | [] => []
  | c :: r => if isWS c then dropWS r else c :: r

/-- Trim JavaScript whitespace at both ends. -/
def jsTrim (l : List Char) : List Char := ((dropWS l).reverse |> dropWS).reverse

/-- The characters of `"Infinity"`. -/
def infinityChars : List Char := ['I', 'n', 'f', 'i', 'n', 'i', 't', 'y']

/-! ## `Number(...)` (ECMAScript StringNumericLiteral) -/

/-- Exact value of an integer-part/fraction-part digit pair. -/
def mantissa (ip fp : List Char) : ℚ :=
  (digitsToNat ip : ℚ) + (digitsToNat fp : ℚ) / (10 : ℚ) ^ fp.length

/-- Parse a full exponent part (after `e`/`E`): optional sign then at least
one digit, consuming the whole input. -/
def parseExpAll (l : List Char) : Option ℤ :=
  match l with
  | '+' :: r => if r.isEmpty || !r.all isDig then none else some (digitsToNat r : ℤ)
  | '-' :: r => if r.isEmpty || !r.all isDig then none else some (-(digitsToNat r : ℤ))
  | r => if r.isEmpty || !r.all isDig then none else some (digitsToNat r : ℤ)

/-- Parse an entire unsigned decimal literal
(`digits [. digits] [exp]` or `. digits [exp]`), or fail. -/
def parseUnsignedDecAll (l : List Char) : Option ℚ :=
  let p := spanDig l
  match p.2 with
  | [] => if p.1.isEmpty then none else some (digitsToNat p.1 : ℚ)
  | '.' :: r2 =>
    let q := spanDig r2
    if p.1.isEmpty && q.1.isEmpty then none
    else
      match q.2 with
      | [] => some (mantissa p.1 q.1)
      | 'e' :: r4 => (parseExpAll r4).map (fun e => mantissa p.1 q.1 * (10 : ℚ) ^ e)
      | 'E' :: r4 => (parseExpAll r4).map (fun e => mantissa p.1 q.1 * (10 : ℚ) ^ e)
      | _ => none
  | 'e' :: r4 =>
    if p.1.isEmpty then none
    else (parseExpAll r4).map (fun e => (digitsToNat p.1 : ℚ) * (10 : ℚ) ^ e)
  | 'E' :: r4 =>
    if p.1.isEmpty then none
    else (parseExpAll r4).map (fun e => (digitsToNat p.1 : ℚ) * (10 : ℚ) ^ e)
  | _ => none

/-- Does the (trimmed) input start with `0x`/`0X`/`0o`/`0O`/`0b`/`0B`? -/
def radixMark (l : List Char) : Bool :=
  match l with
  | c0 :: c1 :: _ =>
    c0 == '0' &&
      (c1 == 'x' || c1 == 'X' || c1 == 'o' || c1 == 'O' || c1 == 'b' || c1 == 'B')
  | _ => false

/-- Value of a non-decimal integer literal (`0x…`, `0o…`, `0b…`). -/
def parseRadix (l : List Char) : JSNum :=
  match l with
  | '0' :: c :: r =>
    let b : Nat := if c == 'x' || c == 'X' then 16 else if c == 'o' || c == 'O' then 8 else 2
    if r.isEmpty || !r.all (fun d => hexDigVal d < b) then JSNum.nan
    else JSNum.num (radixToNat b r : ℚ)
  | _ => JSNum.nan

/-- Unsigned part of a string numeric literal: `Infinity` or a decimal. -/
def decUnsigned (l : List Char) (neg : Bool) : JSNum :=
  if l = infinityChars then (if neg then JSNum.negInf else JSNum.inf)
  else
    match parseUnsignedDecAll l with
    | some q => JSNum.num (if neg then -q else q)
    | none => JSNum.nan

/-- Signed decimal / Infinity literal. -/
def decSigned (l : List Char) : JSNum :=
  match l with
  | '+' :: r => decUnsigned r false
  | '-' :: r => decUnsigned r true
  | r => decUnsigned r false

/-- The JavaScript `Number(s)` coercion on strings: trim; empty means `0`;
a radix-marked literal is a non-negative integer; otherwise a signed
decimal or Infinity literal covering the entire trimmed input; anything
else is `NaN`. -/
def jsNumber (s : String) : JSNum :=
  let l := jsTrim s.data
  if l.isEmpty then JSNum.num 0
  else if radixMark l then parseRadix l
  else decSigned l

/-! ## `parseFloat(...)` (longest numeric prefix) -/

/-- Parse an exponent at a prefix position: optional sign then the longest
run of digits; fails when no digit follows. -/
def pfExp (l : List Char) : Option ℤ :=
  match l with
  | '+' :: r => let d := (spanDig r).1; if d.isEmpty then none else some (digitsToNat d : ℤ)
  | '-' :: r => let d := (spanDig r).1; if d.isEmpty then none else some (-(digitsToNat d : ℤ))
  | r => let d := (spanDig r).1; if d.isEmpty then none else some (digitsToNat d : ℤ)

/-- Apply an optional exponent suffix to an already-parsed mantissa. -/
def applyExpOpt (m : ℚ) (r : List Char) : ℚ :=
  match r with
  | 'e' :: r2 => (match pfExp r2 with | some e => m * (10 : ℚ) ^ e | none => m)
  | 'E' :: r2 => (match pfExp r2 with | some e => m * (10 : ℚ) ^ e | none => m)
  | _ => m

/-- Longest unsigned decimal prefix, ignoring anything after it. -/
def pfDecPart (l : List Char) : Option ℚ :=
  let p := spanDig l
  match p.2 with
  | '.' :: r2 =>
    let q := spanDig r2
    if p.1.isEmpty && q.1.isEmpty then none
    else some (applyExpOpt (mantissa p.1 q.1) q.2)
  | r => if p.1.isEmpty then none else some (applyExpOpt (digitsToNat p.1 : ℚ) r)

/-- Does the input start with the literal `Infinity`? -/
def startsWithInf (l : List Char) : Bool :=
  match l with
  | 'I' :: 'n' :: 'f' :: 'i' :: 'n' :: 'i' :: 't' :: 'y' :: _ => true
  | _ => false

/-- Unsigned part of `parseFloat`: an `Infinity` prefix or a decimal prefix. -/
def pfUnsigned (l : List Char) (neg : Bool) : JSNum :=
  if startsWithInf l then (if neg then JSNum.negInf else JSNum.inf)
  else
    match pfDecPart l with
    | some q => JSNum.num (if neg then -q else q)
    | none => JSNum.nan

/-- The JavaScript `parseFloat(s)`: skip leading whitespace, optional sign,
then the longest `Infinity`/decimal prefix; `NaN` when no prefix parses. -/
def parseFloat (s : String) : JSNum :=
  match dropWS s.data with
  | '+' :: r => pfUnsigned r false
  | '-' :: r => pfUnsigned r true
  | r => pfUnsigned r false

/-! ## Printers: `toString`, `toFixed(6)`, `parseInt(x, 10)` -/

/-- Zero-pad a digit list on the left to six characters. -/
def pad6 (l : List Char) : List Char := List.replicate (6 - l.length) '0' ++ l

/-- `x.toFixed(6)` on a finite value: sign of the value, then the rounded
(half away from zero) magnitude with exactly six fraction digits. -/
def toFixed6 (q : ℚ) : String :=
  let m : ℕ := (⌊|q| * 1000000 + 1 / 2⌋).toNat
  (if q < 0 then "-" else "") ++ natToString (m / 1000000) ++ "." ++
    String.mk (pad6 (natDigitList (m % 1000000)))

/-- `parseInt(s, 10)`: skip whitespace, optional sign, longest digit run. -/
def jsParseInt10 (s : String) : JSNum :=
  match dropWS s.data with
  | '+' :: r => let d := (spanDig r).1; if d.isEmpty then JSNum.nan else JSNum.num (digitsToNat d : ℚ)
  | '-' :: r => let d := (spanDig r).1; if d.isEmpty then JSNum.nan else JSNum.num (-(digitsToNat d : ℚ))
  | r => let d := (spanDig r).1; if d.isEmpty then JSNum.nan else JSNum.num (digitsToNat d : ℚ)

/-! ## `src/utils/wallet.ts` -/

/--
`lovelaceToAda` (the spec's `toDisplayUnits`), from
`src/utils/wallet.ts`:
`const adaAmount = Number(lovelace) / 1000000; return adaAmount.toFixed(6);`.
-/
def lovelaceToAda (lovelace : String) : String :=
  match jsNumber lovelace with
  | JSNum.nan => "NaN"
  | JSNum.inf => "Infinity"
  | JSNum.negInf => "-Infinity"
  | JSNum.num q => toFixed6 (q / 1000000)

/--
`adaToLovelace` (the spec's `toBaseUnits`), from
`src/utils/wallet.ts`:
`const lovelaceAmount = Number(ada) * 1000000; return Math.floor(lovelaceAmount).toString();`.
-/
def adaToLovelace (ada : String) : String :=
  match jsNumber ada with
  | JSNum.nan => "NaN"
  | JSNum.inf => "Infinity"
  | JSNum.negInf => "-Infinity"
  | JSNum.num q => intToString ⌊q * 1000000⌋

/--
`isValidAdaAmount` (the spec's `isValidAmount`), from
`src/utils/wallet.ts`:
`const num = parseFloat(amount); return !isNaN(num) && num > 0 && num <= 45000000;`.
-/
def isValidAdaAmount (amount : String) : Bool :=
  let n := parseFloat amount
  !(jsIsNaN n) && jsLt (JSNum.num 0) n && jsLe n (JSNum.num 45000000)

/--
`formatAddress`, from `src/utils/wallet.ts`:
short addresses are returned unchanged, otherwise
`address.slice(0, maxLength / 2) + "..." + address.slice(-maxLength / 2)`.
`maxLength` is modelled as a natural number (the source default is 16);
JavaScript's `slice` truncates the fractional half-length, and a negative
start of `-0` (which arises when `maxLength / 2 < 1`) selects the whole
string. -/
def formatAddress (address : String) (maxLength : Nat := 16) : String :=
  if address.data.length ≤ maxLength then address
  else
    let k := maxLength / 2
    String.mk (address.data.take k) ++ "..." ++
      (if k = 0 then address
       else String.mk (address.data.drop (address.data.length - k)))

/-- The amount string `Math.floor(parseFloat(amountInAda) * 1000000).toString()`
computed inside `sendFunds` before `tx.sendLovelace`. -/
def pfLovelaceString (amountInAda : String) : String :=
  match parseFloat amountInAda with
  | JSNum.nan => "NaN"
  | JSNum.inf => "Infinity"
  | JSNum.negInf => "-Infinity"
  | JSNum.num q => intToString ⌊q * 1000000⌋

/-- Provider calls made by the staking flow, in the order they happen. -/
inductive StakeEvent : Type
  | attest (message : String)
  | build (recipient : String) (lovelace : String)
  | signTx
  | submitTx
deriving DecidableEq

/-- Responses of the wallet extension for one run of the staking flow:
`signData` answers the attestation request, `buildTx` answers `tx.build()`,
`signTxRes` answers `signTx` on the unsigned transaction, `submitTxRes`
answers `submitTx` on the signed transaction. `Except.error` models a
rejected promise. -/
structure StakeOracles : Type where
  signData : Except String String
  buildTx : Except String String
  signTxRes : String → Except String String
  submitTxRes : String → Except String String

/--
`signMessage`, from `src/utils/wallet.ts`: returns the wallet signature,
and rethrows any provider failure as `Failed to sign message`.
-/
def signMessage (signDataRes : Except String String) : Except String String :=
  match signDataRes with
  | Except.ok sig => Except.ok sig
  | Except.error _ => Except.error "Failed to sign message"

/--
`sendFunds`, from `src/utils/wallet.ts`: adds one `sendLovelace` output of
`Math.floor(parseFloat(amountInAda) * 1000000)` lovelace to
`recipientAddress`, then builds, signs and submits the transaction in that
order, returning the transaction hash; any failure is rethrown as
`Failed to stake funds`. Returns the outcome together with the trace of
provider calls attempted. -/
def sendFunds (recipientAddress amountInAda : String) (o : StakeOracles) :
    Except String String × List StakeEvent :=
  let ev0 := [StakeEvent.build recipientAddress (pfLovelaceString amountInAda)]
  match o.buildTx with
  | Except.error _ => (Except.error "Failed to stake funds", ev0)
  | Except.ok unsignedTx =>
    let ev1 := ev0 ++ [StakeEvent.signTx]
    match o.signTxRes unsignedTx with
    | Except.error _ => (Except.error "Failed to stake funds", ev1)
    | Except.ok signedTx =>
      let ev2 := ev1 ++ [StakeEvent.submitTx]
      match o.submitTxRes signedTx with
      | Except.error _ => (Except.error "Failed to stake funds", ev2)
      | Except.ok txHash => (Except.ok txHash, ev2)

/-! ## The Dash page (`handleStake`) -/

/-- A stake pool entry as kept by the Dash page. -/
structure StakePool : Type where
  id : String
  ticker : String
  name : String
deriving DecidableEq

/-- The fixed destination address `PREDEFINED_ADDRESS` of the Dash page. -/
def PREDEFINED_ADDRESS : String :=
  "addr1qyu5zmg7l5td593d2ks5ae7uctuhzk8h4ex0x5v8mcjjzmvlqrf65ppyqkrm8zpmpl6w0qh9e8wyhwsteqh7ksfamevqe9rqlw"

/-- Outcome of one `handleStake` run: the guard returned early, the run
failed with an error message, or a transaction hash was obtained. -/
inductive StakeOutcome : Type
  | noOp
  | failed (msg : String)
  | succeeded (txHash : String)
deriving DecidableEq

/-- Page state after one `handleStake` run, together with the outcome and
the trace of provider calls. -/
structure StakeResult : Type where
  outcome : StakeOutcome
  events : List StakeEvent
  stakeAmount : String
  error : Option String
  success : Option String
  isStaking : Bool
deriving DecidableEq

/--
`handleStake`, from the Dash page: returns early when no wallet is
connected or no pool is selected; otherwise validates
`parseFloat(stakeAmount)` against the minimum of 5, signs the pool name as
an attestation message, and sends the funds to `PREDEFINED_ADDRESS`.
`error0`/`success0` are the `error`/`success` state before the run. -/
def handleStake (hasWallet : Bool) (selectedPool : Option StakePool)
    (stakeAmount : String) (error0 success0 : Option String)
    (o : StakeOracles) : StakeResult :=
  match hasWallet, selectedPool with
  | false, _ =>
    { outcome := StakeOutcome.noOp, events := [], stakeAmount := stakeAmount,
      error := error0, success := success0, isStaking := false }
  | true, none =>
    { outcome := StakeOutcome.noOp, events := [], stakeAmount := stakeAmount,
      error := error0, success := success0, isStaking := false }
  | true, some pool =>
    let n := parseFloat stakeAmount
    if jsIsNaN n || jsLt n (JSNum.num 5) then
      { outcome := StakeOutcome.failed "Stake amount must be at least 5 ADA",
        events := [], stakeAmount := stakeAmount,
        error := some "Stake amount must be at least 5 ADA", success := none,
        isStaking := false }
    else
      match signMessage o.signData with
      | Except.error e =>
        { outcome := StakeOutcome.failed e,
          events := [StakeEvent.attest pool.name], stakeAmount := stakeAmount,
          error := some e, success := none, isStaking := false }
      | Except.ok _sig =>
        match sendFunds PREDEFINED_ADDRESS stakeAmount o with
        | (Except.error e, evs) =>
          { outcome := StakeOutcome.failed e,
            events := StakeEvent.attest pool.name :: evs,
            stakeAmount := stakeAmount, error := some e, success := none,
            isStaking := false }
        | (Except.ok txHash, evs) =>
          { outcome := StakeOutcome.succeeded txHash,
            events := StakeEvent.attest pool.name :: evs, stakeAmount := "",
            error := none,
            success := some ("Successfully staked " ++ stakeAmount ++
              " ADA to " ++ pool.name),
            isStaking := false }

/-! ## The History page -/

/-- A row of the transaction table. -/
structure TransactionItem : Type where
  txHash : String
  block : String
  time : String
  amount : String
  statusOutgoing : Bool
deriving DecidableEq

/-- A row of the delegate-history table. -/
structure DelegateRecord : Type where
  transaction : String
  epoch : String
  block : String
  poolId : String
deriving DecidableEq

/-- One entry of the paginated address-transaction listing returned by the
indexer. -/
structure TxSummary : Type where
  tx_hash : String
  block_height : ℤ
  tx_index : Nat
deriving DecidableEq

/-- The fields of a per-transaction detail response used by the page:
`block_time` and `output_amount[0].quantity` (the source reads the first
output unconditionally; the detail response is modelled as providing it). -/
structure TxDetail : Type where
  block_time : ℤ
  quantity0 : String
deriving DecidableEq

/-- An HTTP response of the paginated transaction listing: status, status
text, body (`none` models a non-array JSON body) and the
`X-Pagination-Total-Count` header when present. -/
structure TxPageResponse : Type where
  status : Nat
  statusText : String
  body : Option (List TxSummary)
  totalHeader : Option String
deriving DecidableEq

/-- An HTTP response of the account-delegations listing. -/
structure DelegItem : Type where
  tx_hash : String
  active_epoch : ℤ
  block_height : Option ℤ
  pool_id : String
deriving DecidableEq

/-- An HTTP response of the account-delegations listing: status, status
text and body (`none` models a non-array JSON body). -/
structure DelegResponse : Type where
  status : Nat
  statusText : String
  body : Option (List DelegItem)
deriving DecidableEq

/-- A `fetch` that either produced a response or rejected with a network
error message. -/
inductive NetResult (α : Type) : Type
  | ok (response : α)
  | netErr (msg : String)

/-- `Response.ok`: status in the inclusive range 200–299. -/
def respOk (status : Nat) : Bool := 200 ≤ status && status < 300

/-- State of the History page touched by the fetches modelled here. -/
structure HistoryState : Type where
  transactions : List TransactionItem
  isLoading : Bool
  error : Option String
  totalTransactions : JSNum
  delegateHistory : List DelegateRecord
  isDelegateHistoryLoading : Bool
deriving DecidableEq

/-- `ITEMS_PER_PAGE` of the History page. -/
def ITEMS_PER_PAGE : Nat := 10

/-- One formatted transaction row: block height via `toString`, time via
the environment's `toLocaleString` (abstracted as `locale`), amount as the
first output's quantity divided by 1,000,000 and fixed to six digits, and
the index-0 heuristic for the direction. -/
def mkItem (detail : String → TxDetail) (locale : ℤ → String)
    (tx : TxSummary) : TransactionItem :=
  let d := detail tx.tx_hash
  { txHash := tx.tx_hash
    block := intToString tx.block_height
    time := locale (d.block_time * 1000)
    amount := lovelaceToAda d.quantity0
    statusOutgoing := tx.tx_index = 0 }

/--
`fetchTransactions`, from the History page: sets loading, clears the
error, and then — a missing payment address throws; a rejected fetch or a
non-array body is caught into the error state; a 404 yields the empty list
with total 0 and no error; any other non-ok status is surfaced as
`API request failed: <status> <statusText>`; an ok array body is formatted
(per-item details via `detail`, locale rendering via `locale`) and the
total is `parseInt` of the `X-Pagination-Total-Count` header (default "0").
-/
def fetchTransactionsStep (st : HistoryState) (paymentAddress : Option String)
    (resp : NetResult TxPageResponse) (detail : String → TxDetail)
    (locale : ℤ → String) : HistoryState :=
  let st1 := { st with isLoading := true, error := none }
  match paymentAddress with
  | none => { st1 with error := some "No payment address found", isLoading := false }
  | some _ =>
    match resp with
    | NetResult.netErr m => { st1 with error := some m, isLoading := false }
    | NetResult.ok r =>
      if r.status = 404 then
        { st1 with
          transactions := []
          totalTransactions := JSNum.num 0
          isLoading := false }
      else if !respOk r.status then
        { st1 with
          error := some ("API request failed: " ++ natToString r.status ++
            " " ++ r.statusText),
          isLoading := false }
      else
        match r.body with
        | none =>
          { st1 with
            error := some "Unexpected API response format"
            isLoading := false }
        | some data =>
          { st1 with
            transactions := data.map (mkItem detail locale)
            totalTransactions := jsParseInt10 (r.totalHeader.getD "0")
            isLoading := false }

/-- One formatted delegate-history row; JavaScript truthiness makes both a
missing and a zero `currentEpoch`/`block_height` fall back to the empty
annotation resp. `"N/A"`. -/
def mkDeleg (currentEpoch : Option ℤ) (item : DelegItem) : DelegateRecord :=
  { transaction := item.tx_hash
    epoch := "Epoch " ++ intToString item.active_epoch ++
      (match currentEpoch with
       | some e => if e = 0 then "" else " (Current: " ++ intToString e ++ ")"
       | none => "")
    block := (match item.block_height with
       | some b => if b = 0 then "N/A" else intToString b
       | none => "N/A")
    poolId := item.pool_id }

/--
`fetchDelegateHistory`, from the History page: sets loading, clears the
error, and then — a missing stake address throws; a rejected fetch, a
non-ok status or a non-array body is caught, recording the error message
and resetting the delegate history to the empty list; an ok array body is
formatted with the current-epoch annotation.
-/
def fetchDelegateHistoryStep (st : HistoryState) (stakeAddress : Option String)
    (currentEpoch : Option ℤ) (resp : NetResult DelegResponse) : HistoryState :=
  let st1 := { st with isDelegateHistoryLoading := true, error := none }
  match stakeAddress with
  | none =>
    { st1 with
      error := some "No stake address found"
      delegateHistory := []
      isDelegateHistoryLoading := false }
  | some _ =>
    match resp with
    | NetResult.netErr m =>
      { st1 with
        error := some m
        delegateHistory := []
        isDelegateHistoryLoading := false }
    | NetResult.ok r =>
      if !respOk r.status then
        { st1 with
          error := some ("API request failed: " ++ natToString r.status ++
            " " ++ r.statusText),
          delegateHistory := [], isDelegateHistoryLoading := false }
      else
        match r.body with
        | none =>
          { st1 with
            error := some "Unexpected API response format"
            delegateHistory := []
            isDelegateHistoryLoading := false }
        | some data =>
          { st1 with
            delegateHistory := data.map (mkDeleg currentEpoch)
            isDelegateHistoryLoading := false }

/--
`totalPages`, from the History page:
`Math.max(1, Math.ceil(totalTransactions / ITEMS_PER_PAGE))`.
-/
def totalPages (totalTransactions : JSNum) : JSNum :=
  jsMax (JSNum.num 1) (jsCeil (jsDiv totalTransactions (JSNum.num (ITEMS_PER_PAGE : ℚ))))

/-- What the History page renders. -/
inductive HistoryView : Type
  | loading
  | errorView (msg : String)
  | content (transactions : List TransactionItem) (totalTransactions : JSNum)
      (delegateHistory : List DelegateRecord)
deriving DecidableEq

/-- The render gate of the History page: the preloader while either fetch
is loading, the error screen (with retry) when an error is recorded,
otherwise the transaction table and the delegate-history table. -/
def renderHistory (st : HistoryState) : HistoryView :=
  if st.isLoading || st.isDelegateHistoryLoading then HistoryView.loading
  else
    match st.error with
    | some m => HistoryView.errorView m
    | none => HistoryView.content st.transactions st.totalTransactions st.delegateHistory

/-- A failing run of the delegation-history fetch: the fetch rejected, the
response status was not ok, or the body was not an array. -/
def isDelegFailure : NetResult DelegResponse → Prop
  | NetResult.netErr _ => True
  | NetResult.ok r => respOk r.status = false ∨ r.body = none

/-! ## Digit printer lemmas -/

theorem isDig_digitChar (d : Nat) : isDig (digitChar d) = true := by
  unfold digitChar
  split <;> decide

theorem digitChar_toNat (d : Nat) (h : d < 10) : (digitChar d).toNat = 48 + d := by
  interval_cases d <;> decide

theorem digitsToNat_append (a : List Char) (c : Char) :
    digitsToNat (a ++ [c]) = 10 * digitsToNat a + (c.toNat - 48) := by
  unfold digitsToNat
  rw [List.foldl_append]
  rfl

theorem natDigitsAux_val (fuel n : Nat) (h : n < fuel) :
    digitsToNat (natDigitsAux fuel n) = n := by
  induction fuel generalizing n with
  | zero => omega
  | succ f ih =>
    unfold natDigitsAux
    by_cases h10 : n < 10
    · simp only [if_pos h10]
      unfold digitsToNat
      simp [List.foldl, digitChar_toNat n h10]
    · simp only [if_neg h10]
      rw [digitsToNat_append, ih (n / 10) (by omega), digitChar_toNat (n % 10) (by omega)]
      omega

theorem natDigitsAux_all_dig (fuel n : Nat) :
    ∀ c ∈ natDigitsAux fuel n, isDig c = true := by
  induction fuel generalizing n with
  | zero => intro c hc; simp [natDigitsAux] at hc
  | succ f ih =>
    intro c hc
    unfold natDigitsAux at hc
    by_cases h10 : n < 10
    · simp only [if_pos h10, List.mem_singleton] at hc
      subst hc; exact isDig_digitChar n
    · simp only [if_neg h10, List.mem_append, List.mem_singleton] at hc
      rcases hc with hc | hc
      · exact ih (n / 10) c hc
      · subst hc; exact isDig_digitChar (n % 10)

theorem natDigitsAux_ne_nil (fuel n : Nat) (h : n < fuel) :
    natDigitsAux fuel n ≠ [] := by
  cases fuel with
  | zero => omega
  | succ f =>
    unfold natDigitsAux
    by_cases h10 : n < 10
    · simp [if_pos h10]
    · simp [if_neg h10]

theorem digitsToNat_natDigitList (n : Nat) : digitsToNat (natDigitList n) = n :=
  natDigitsAux_val (n + 1) n (Nat.lt_succ_self n)

theorem natDigitList_all_dig (n : Nat) : ∀ c ∈ natDigitList n, isDig c = true :=
  natDigitsAux_all_dig (n + 1) n

theorem natDigitList_ne_nil (n : Nat) : natDigitList n ≠ [] :=
  natDigitsAux_ne_nil (n + 1) n (Nat.lt_succ_self n)

/-! ## Scanner lemmas -/

theorem isWS_eq_false_of_isDig (c : Char) (h : isDig c = true) : isWS c = false := by
  simp only [isDig, Bool.and_eq_true, decide_eq_true_eq] at h
  simp only [isWS, Bool.or_eq_false_iff, beq_eq_false_iff_ne, ne_eq]
  omega

theorem dropWS_no_ws (l : List Char) (h : ∀ c ∈ l, isWS c = false) : dropWS l = l := by
  cases l with
  | nil => rfl
  | cons c r =>
    unfold dropWS
    rw [h c (List.mem_cons_self c r)]
    simp

theorem jsTrim_no_ws (l : List Char) (h : ∀ c ∈ l, isWS c = false) : jsTrim l = l := by
  unfold jsTrim
  rw [dropWS_no_ws l h]
  rw [dropWS_no_ws l.reverse (fun c hc => h c (List.mem_reverse.mp hc))]
  exact List.reverse_reverse l

theorem spanDig_all (l : List Char) (h : ∀ c ∈ l, isDig c = true) :
    spanDig l = (l, []) := by
  induction l with
  | nil => rfl
  | cons c r ih =>
    unfold spanDig
    rw [h c (List.mem_cons_self c r), ih (fun d hd => h d (List.mem_cons_of_mem c hd))]
    simp

/-! ## `Number` / printer round trip -/

theorem not_radix_letter_of_isDig (c : Char) (h : isDig c = true) :
    (c == 'x' || c == 'X' || c == 'o' || c == 'O' || c == 'b' || c == 'B') = false := by
  simp only [Bool.or_eq_false_iff, beq_eq_false_iff_ne, ne_eq]
  refine ⟨⟨⟨⟨⟨?_, ?_⟩, ?_⟩, ?_⟩, ?_⟩, ?_⟩ <;>
    · intro hcc
      subst hcc
      revert h
      decide

theorem radixMark_all_dig (l : List Char) (h : ∀ c ∈ l, isDig c = true) :
    radixMark l = false := by
  cases l with
  | nil => rfl
  | cons c0 r =>
    cases r with
    | nil => rfl
    | cons c1 t =>
      have hc1 : isDig c1 = true := h c1 (by simp)
      simp [radixMark, not_radix_letter_of_isDig c1 hc1]

theorem decSigned_dig_head (c : Char) (r : List Char) (h : isDig c = true) :
    decSigned (c :: r) = decUnsigned (c :: r) false := by
  unfold decSigned
  split
  · rename_i r1 heq
    rw [List.cons.injEq] at heq
    rw [heq.1] at h
    exact absurd h (by decide)
  · rename_i r1 heq
    rw [List.cons.injEq] at heq
    rw [heq.1] at h
    exact absurd h (by decide)
  · rfl

theorem ne_infinityChars_of_dig_head (c : Char) (r : List Char) (h : isDig c = true) :
    c :: r ≠ infinityChars := by
  intro heq
  rw [infinityChars, List.cons.injEq] at heq
  rw [heq.1] at h
  exact absurd h (by decide)

theorem parseUnsignedDecAll_digits (l : List Char) (hne : l ≠ [])
    (h : ∀ c ∈ l, isDig c = true) :
    parseUnsignedDecAll l = some (digitsToNat l : ℚ) := by
  unfold parseUnsignedDecAll
  rw [spanDig_all l h]
  simp [hne]

theorem decUnsigned_digits (l : List Char) (hne : l ≠ [])
    (h : ∀ c ∈ l, isDig c = true) (neg : Bool) :
    decUnsigned l neg =
      JSNum.num (if neg then -(digitsToNat l : ℚ) else (digitsToNat l : ℚ)) := by
  obtain ⟨c, r, rfl⟩ : ∃ c r, l = c :: r := by
    cases l with
    | nil => exact absurd rfl hne
    | cons c r => exact ⟨c, r, rfl⟩
  unfold decUnsigned
  rw [if_neg (ne_infinityChars_of_dig_head c r (h c (List.mem_cons_self c r)))]
  rw [parseUnsignedDecAll_digits _ hne h]

theorem jsNumber_natToString (m : Nat) :
    jsNumber (natToString m) = JSNum.num (m : ℚ) := by
  have hdig := natDigitList_all_dig m
  have hne := natDigitList_ne_nil m
  have hnws : ∀ c ∈ natDigitList m, isWS c = false :=
    fun c hc => isWS_eq_false_of_isDig c (hdig c hc)
  unfold jsNumber natToString
  simp only [String.data]
  rw [jsTrim_no_ws _ hnws]
  rw [if_neg (by simp [List.isEmpty_iff, hne])]
  rw [radixMark_all_dig _ hdig]
  simp only [Bool.false_eq_true, if_false]
  obtain ⟨c, r, hl⟩ : ∃ c r, natDigitList m = c :: r := by
    cases h : natDigitList m with
    | nil => exact absurd h hne
    | cons c r => exact ⟨c, r, rfl⟩
  rw [hl]
  rw [decSigned_dig_head c r (by rw [hl] at hdig; exact hdig c (List.mem_cons_self c r))]
  rw [← hl]
  rw [decUnsigned_digits _ hne hdig false]
  rw [digitsToNat_natDigitList]
  rfl

theorem jsNumber_intToString (n : ℤ) :
    jsNumber (intToString n) = JSNum.num (n : ℚ) := by
  unfold intToString
  by_cases hn : n < 0
  · rw [if_pos hn]
    have hdig := natDigitList_all_dig n.natAbs
    have hne := natDigitList_ne_nil n.natAbs
    have hdata : ("-" ++ natToString n.natAbs).data = '-' :: natDigitList n.natAbs := rfl
    unfold jsNumber
    rw [hdata]
    rw [jsTrim_no_ws _ ?hws]
    case hws =>
      intro c hc
      rcases List.mem_cons.mp hc with hc | hc
      · subst hc; decide
      · exact isWS_eq_false_of_isDig c (hdig c hc)
    rw [if_neg (by simp)]
    have hrm : radixMark ('-' :: natDigitList n.natAbs) = false := by
      cases natDigitList n.natAbs with
      | nil => rfl
      | cons c1 t => simp [radixMark]
    rw [hrm]
    simp only [Bool.false_eq_true, if_false]
    have hds : decSigned ('-' :: natDigitList n.natAbs) =
        decUnsigned (natDigitList n.natAbs) true := rfl
    rw [hds]
    rw [decUnsigned_digits _ hne hdig true]
    rw [digitsToNat_natDigitList]
    simp only [if_true]
    congr 1
    have h1 : (n.natAbs : ℤ) = -n := by omega
    have h2 : ((n.natAbs : ℕ) : ℚ) = ((-n : ℤ) : ℚ) := by
      rw [← h1]
      push_cast
      rw [Int.cast_natAbs, Int.cast_abs]
    rw [h2]
    push_cast
    ring
  · rw [if_neg hn]
    rw [jsNumber_natToString]
    congr 1
    have h1 : (n.toNat : ℤ) = n := by omega
    exact_mod_cast congrArg (fun z : ℤ => (z : ℚ)) h1

/-! ## Claim theorems -/

/-- C1 (amended): `isValidAdaAmount d` is true exactly when `d` parses
(under the `parseFloat` semantics the source uses) to a finite number
strictly greater than 0 and at most 45,000,000 display units — the
ceiling in the code is 45,000,000, not the 45,000,000,000,000 stated by
the claim. Non-parsing input yields false. -/
theorem isValidAdaAmount_iff_ceiling (d : String) :
    isValidAdaAmount d = true ↔
      ∃ q : ℚ, parseFloat d = JSNum.num q ∧ 0 < q ∧ q ≤ 45000000 := by
  unfold isValidAdaAmount
  cases h : parseFloat d with
  | nan => simp [jsIsNaN, jsLt, jsLe]
  | inf => simp [jsIsNaN, jsLt, jsLe]
  | negInf => simp [jsIsNaN, jsLt, jsLe]
  | num q => simp [jsIsNaN, jsLt, jsLe, and_assoc]

/-- C1, counterexample to the claim as stated: `"1000000000"` parses to
10⁹, which lies strictly between 0 and the claimed ceiling of
45,000,000,000,000, yet `isValidAdaAmount` rejects it (the code's ceiling
is 45,000,000). -/
theorem isValidAdaAmount_ceiling_cex :
    parseFloat "1000000000" = JSNum.num 1000000000 ∧
    (0 : ℚ) < 1000000000 ∧ (1000000000 : ℚ) ≤ 45000000000000 ∧
    isValidAdaAmount "1000000000" = false := by
  refine ⟨by decide, by norm_num, by norm_num, by decide⟩

/-- C4 (amended): the unit conversions are total — for every input string
they return normally — but input that does not coerce to a number yields
the string `"NaN"` from both conversions (not `"0"` as claimed), and
`false` from the validator. -/
theorem conversions_nan_total (s : String) :
    (jsNumber s = JSNum.nan →
      adaToLovelace s = "NaN" ∧ lovelaceToAda s = "NaN") ∧
    (parseFloat s = JSNum.nan → isValidAdaAmount s = false) := by
  constructor
  · intro h
    constructor
    · unfold adaToLovelace
      rw [h]
    · unfold lovelaceToAda
      rw [h]
  · intro h
    unfold isValidAdaAmount
    rw [h]
    rfl

/-- C4, witness: the non-numeric input `"abc"` exercises both branches. -/
theorem conversions_nan_total_w :
    (jsNumber "abc" = JSNum.nan ∧
      adaToLovelace "abc" = "NaN" ∧ lovelaceToAda "abc" = "NaN") ∧
    (parseFloat "abc" = JSNum.nan ∧ isValidAdaAmount "abc" = false) := by
  have h1 : jsNumber "abc" = JSNum.nan := by decide
  have h2 : parseFloat "abc" = JSNum.nan := by decide
  exact ⟨⟨h1, (conversions_nan_total "abc").1 h1⟩,
    ⟨h2, (conversions_nan_total "abc").2 h2⟩⟩

/-- C4, counterexample to the claim as stated: on the non-numeric input
`"abc"` the conversion returns `"NaN"`, which differs from the `"0"` the
claim promises. -/
theorem conversions_nan_cex :
    adaToLovelace "abc" = "NaN" ∧ lovelaceToAda "abc" = "NaN" ∧
    ("NaN" : String) ≠ "0" := by
  refine ⟨by decide, by decide, by decide⟩

/-- C5: for every amount representable without precision loss at six
fraction digits (its value times 10⁶ is an integer), converting to base
units and back recovers the amount to six decimal places
(`toFixed6` of its value), and the two concrete conversions of the claim
hold. Arithmetic is exact in this embedding (see the header note on the
IEEE-754 idealisation). -/
theorem roundTrip_six_decimals (x : String) (q : ℚ)
    (hx : jsNumber x = JSNum.num q) (hden : (q * 1000000).den = 1) :
    lovelaceToAda (adaToLovelace x) = toFixed6 q ∧
    adaToLovelace "5" = "5000000" ∧ lovelaceToAda "5000000" = "5.000000" := by
  refine ⟨?_, by with_unfolding_all rfl, by with_unfolding_all rfl⟩
  have hn : (((q * 1000000).num : ℤ) : ℚ) = q * 1000000 := by
    have hd := Rat.num_div_den (q * 1000000)
    rw [hden] at hd
    simpa using hd
  have hfloor : ⌊q * 1000000⌋ = (q * 1000000).num := by
    rw [← hn]
    exact Int.floor_intCast _
  have h1 : adaToLovelace x = intToString (q * 1000000).num := by
    simp only [adaToLovelace, hx]
    rw [hfloor]
  rw [h1]
  simp only [lovelaceToAda, jsNumber_intToString]
  congr 1
  rw [hn]
  field_simp

/-- C5, witness: `x = "5"` with value 5. -/
theorem roundTrip_six_decimals_w :
    (jsNumber "5" = JSNum.num 5 ∧ ((5 : ℚ) * 1000000).den = 1) ∧
    (lovelaceToAda (adaToLovelace "5") = toFixed6 5 ∧
      adaToLovelace "5" = "5000000" ∧ lovelaceToAda "5000000" = "5.000000") := by
  have h1 : jsNumber "5" = JSNum.num 5 := by decide
  have h2 : ((5 : ℚ) * 1000000).den = 1 := by with_unfolding_all rfl
  exact ⟨⟨h1, h2⟩, roundTrip_six_decimals "5" 5 h1 h2⟩

/-- C2: with a wallet connected and a pool selected, a stake amount that
does not parse (`parseFloat` gives `NaN`) or parses below 5 makes the
submission fail directly with the below-minimum error: no provider call is
made (empty event trace, so in particular the attestation step is never
reached) and the entered amount is left unchanged. -/
theorem handleStake_below_minimum (pool : StakePool) (amt : String)
    (error0 success0 : Option String) (o : StakeOracles)
    (h : parseFloat amt = JSNum.nan ∨ parseFloat amt = JSNum.negInf ∨
      ∃ q : ℚ, parseFloat amt = JSNum.num q ∧ q < 5) :
    handleStake true (some pool) amt error0 success0 o =
      { outcome := StakeOutcome.failed "Stake amount must be at least 5 ADA"
        events := []
        stakeAmount := amt
        error := some "Stake amount must be at least 5 ADA"
        success := none
        isStaking := false } := by
  have hcond : (jsIsNaN (parseFloat amt) || jsLt (parseFloat amt) (JSNum.num 5)) = true := by
    rcases h with h | h | ⟨q, hq, hlt⟩
    · rw [h]; rfl
    · rw [h]; rfl
    · rw [hq]
      simp [jsIsNaN, jsLt, hlt]
  simp only [handleStake]
  rw [if_pos hcond]

/-- C2, witness: the claim's probe `"4.999999"` parses to 4.999999 < 5 and
fails with no provider calls. -/
theorem handleStake_below_minimum_w :
    (parseFloat "4.999999" = JSNum.nan ∨ parseFloat "4.999999" = JSNum.negInf ∨
      ∃ q : ℚ, parseFloat "4.999999" = JSNum.num q ∧ q < 5) ∧
    handleStake true (some ⟨"p1", "POOL1", "Pool One"⟩) "4.999999" none none
        ⟨Except.ok "sig", Except.ok "utx", fun _ => Except.ok "stx",
          fun _ => Except.ok "txh"⟩ =
      { outcome := StakeOutcome.failed "Stake amount must be at least 5 ADA"
        events := []
        stakeAmount := "4.999999"
        error := some "Stake amount must be at least 5 ADA"
        success := none
        isStaking := false } := by
  have hp : parseFloat "4.999999" = JSNum.num (4999999 / 1000000 : ℚ) := by
    with_unfolding_all rfl
  have hlt : (4999999 / 1000000 : ℚ) < 5 := by norm_num
  exact ⟨Or.inr (Or.inr ⟨_, hp, hlt⟩),
    handleStake_below_minimum _ "4.999999" none none _
      (Or.inr (Or.inr ⟨_, hp, hlt⟩))⟩

/-- C3: with a wallet connected, a pool selected, a stake amount whose
value is at least 5 (under both coercions the source uses), and a wallet
session that accepts every request, the staking flow first requests a
signature over exactly the selected pool's display name, then builds a
single-output transfer of `adaToLovelace stakeAmount` base units to the
fixed `PREDEFINED_ADDRESS`, then signs, then submits — in that order — and
returns the transaction hash reported by the provider. -/
theorem handleStake_success_order (pool : StakePool) (amt : String) (q : ℚ)
    (error0 success0 : Option String) (o : StakeOracles)
    (sig utx stx txh : String)
    (hpf : parseFloat amt = JSNum.num q) (hnum : jsNumber amt = JSNum.num q)
    (hq : 5 ≤ q)
    (hsig : o.signData = Except.ok sig) (hb : o.buildTx = Except.ok utx)
    (hs : o.signTxRes utx = Except.ok stx)
    (hsub : o.submitTxRes stx = Except.ok txh) :
    handleStake true (some pool) amt error0 success0 o =
      { outcome := StakeOutcome.succeeded txh
        events := [StakeEvent.attest pool.name,
          StakeEvent.build PREDEFINED_ADDRESS (adaToLovelace amt),
          StakeEvent.signTx, StakeEvent.submitTx]
        stakeAmount := ""
        error := none
        success := some ("Successfully staked " ++ amt ++ " ADA to " ++ pool.name)
        isStaking := false } := by
  have hamt : pfLovelaceString amt = adaToLovelace amt := by
    simp only [pfLovelaceString, adaToLovelace, hpf, hnum]
  have hcond : (jsIsNaN (parseFloat amt) || jsLt (parseFloat amt) (JSNum.num 5)) = false := by
    rw [hpf]
    simp only [jsIsNaN, jsLt, Bool.false_or]
    rw [decide_eq_false (not_lt.mpr hq)]
  simp only [handleStake]
  rw [hcond]
  simp only [Bool.false_eq_true, if_false, signMessage, hsig, sendFunds, hb, hs, hsub, hamt]
  rfl

/-- C3, witness: staking `"10"` to a selected pool with an accepting
session yields the attest/build/sign/submit trace and the provider's hash. -/
theorem handleStake_success_order_w :
    (parseFloat "10" = JSNum.num 10 ∧ jsNumber "10" = JSNum.num 10 ∧ (5 : ℚ) ≤ 10) ∧
    handleStake true (some ⟨"p1", "POOL1", "Pool One"⟩) "10" none none
        ⟨Except.ok "sig", Except.ok "utx", fun _ => Except.ok "stx",
          fun _ => Except.ok "txh"⟩ =
      { outcome := StakeOutcome.succeeded "txh"
        events := [StakeEvent.attest "Pool One",
          StakeEvent.build PREDEFINED_ADDRESS (adaToLovelace "10"),
          StakeEvent.signTx, StakeEvent.submitTx]
        stakeAmount := ""
        error := none
        success := some ("Successfully staked " ++ "10" ++ " ADA to " ++ "Pool One")
        isStaking := false } := by
  have h1 : parseFloat "10" = JSNum.num 10 := by decide
  have h2 : jsNumber "10" = JSNum.num 10 := by decide
  have h3 : (5 : ℚ) ≤ 10 := by norm_num
  exact ⟨⟨h1, h2, h3⟩,
    handleStake_success_order ⟨"p1", "POOL1", "Pool One"⟩ "10" 10 none none
      _ "sig" "utx" "stx" "txh" h1 h2 h3 rfl rfl rfl rfl⟩

/-- C9: over every input and every provider behaviour, the entered stake
amount is carried through unchanged by a run of `handleStake` that does
not succeed (missing precondition, validation failure, attestation
failure, or build/sign/submit failure), and it is reset to the empty
string exactly when the run succeeds. -/
theorem handleStake_resets_only_on_success (hw : Bool) (sp : Option StakePool)
    (amt : String) (error0 success0 : Option String) (o : StakeOracles) :
    (handleStake hw sp amt error0 success0 o).stakeAmount =
      (match (handleStake hw sp amt error0 success0 o).outcome with
       | StakeOutcome.succeeded _ => ""
       | _ => amt) := by
  cases hw with
  | false => cases sp <;> rfl
  | true =>
    cases sp with
    | none => rfl
    | some pool =>
      simp only [handleStake]
      by_cases hcond : (jsIsNaN (parseFloat amt) || jsLt (parseFloat amt) (JSNum.num 5)) = true
      · rw [if_pos hcond]
      · rw [if_neg hcond]
        cases hsd : o.signData with
        | error e => simp [signMessage]
        | ok s =>
          simp only [signMessage]
          cases hb : o.buildTx with
          | error e => simp [sendFunds, hb]
          | ok utx =>
            cases hs : o.signTxRes utx with
            | error e => simp [sendFunds, hb, hs]
            | ok stx =>
              cases hsub : o.submitTxRes stx with
              | error e => simp [sendFunds, hb, hs, hsub]
              | ok txh => simp [sendFunds, hb, hs, hsub]

/-- C6 (amended): every failing delegation-history fetch (rejected fetch,
non-ok status, or malformed body) leaves an empty delegation list and
records an error message for display — but the recorded error makes the
page render the error view (with its retry affordance) instead of the
transaction history, so the failure is blocking, not advisory. -/
theorem fetchDelegateHistory_failure_blocks (st : HistoryState) (addr : String)
    (epoch : Option ℤ) (resp : NetResult DelegResponse)
    (hLoaded : st.isLoading = false) (hfail : isDelegFailure resp) :
    ∃ m : String,
      (fetchDelegateHistoryStep st (some addr) epoch resp).delegateHistory = [] ∧
      (fetchDelegateHistoryStep st (some addr) epoch resp).error = some m ∧
      renderHistory (fetchDelegateHistoryStep st (some addr) epoch resp) =
        HistoryView.errorView m := by
  cases resp with
  | netErr m =>
    exact ⟨m, by simp [fetchDelegateHistoryStep],
      by simp [fetchDelegateHistoryStep],
      by simp [fetchDelegateHistoryStep, renderHistory, hLoaded]⟩
  | ok r =>
    by_cases hok : respOk r.status = true
    · have hbody : r.body = none := by
        rcases hfail with hst | hbody
        · rw [hok] at hst
          exact absurd hst (by decide)
        · exact hbody
      exact ⟨"Unexpected API response format",
        by simp [fetchDelegateHistoryStep, hok, hbody],
        by simp [fetchDelegateHistoryStep, hok, hbody],
        by simp [fetchDelegateHistoryStep, renderHistory, hok, hbody, hLoaded]⟩
    · have hst : respOk r.status = false := by
        cases h : respOk r.status
        · rfl
        · exact absurd h hok
      exact ⟨"API request failed: " ++ natToString r.status ++ " " ++ r.statusText,
        by simp [fetchDelegateHistoryStep, hst],
        by simp [fetchDelegateHistoryStep, hst],
        by simp [fetchDelegateHistoryStep, renderHistory, hst, hLoaded]⟩

/-- C6, witness: a concrete loaded page, a stake address, and a 500
response from the delegations endpoint. -/
theorem fetchDelegateHistory_failure_blocks_w :
    ((⟨[], false, none, JSNum.num 0, [], true⟩ : HistoryState).isLoading = false ∧
      isDelegFailure (NetResult.ok
        (⟨500, "Internal Server Error", some []⟩ : DelegResponse))) ∧
    ∃ m : String,
      (fetchDelegateHistoryStep (⟨[], false, none, JSNum.num 0, [], true⟩ : HistoryState)
        (some "stake1u9example") (some 450)
        (NetResult.ok ⟨500, "Internal Server Error", some []⟩)).delegateHistory = [] ∧
      (fetchDelegateHistoryStep (⟨[], false, none, JSNum.num 0, [], true⟩ : HistoryState)
        (some "stake1u9example") (some 450)
        (NetResult.ok ⟨500, "Internal Server Error", some []⟩)).error = some m ∧
      renderHistory (fetchDelegateHistoryStep
        (⟨[], false, none, JSNum.num 0, [], true⟩ : HistoryState)
        (some "stake1u9example") (some 450)
        (NetResult.ok ⟨500, "Internal Server Error", some []⟩)) =
        HistoryView.errorView m := by
  refine ⟨⟨rfl, Or.inl (by decide)⟩, ?_⟩
  exact fetchDelegateHistory_failure_blocks _ "stake1u9example" (some 450) _
    rfl (Or.inl (by decide))

/-- C6, counterexample to the claim as stated: with the transaction fetch
already completed (one transaction loaded), a failed delegation fetch
leaves the delegation list empty and records the error — but the page then
renders the error view, not the transaction history, contradicting
"does not block the transaction history from rendering". -/
theorem fetchDelegateHistory_blocking_cex :
    (fetchDelegateHistoryStep
      (⟨[⟨"tx1", "100", "t1", "1.000000", true⟩], false, none, JSNum.num 1, [],
        true⟩ : HistoryState)
      (some "stake1u9other") (some 450)
      (NetResult.ok ⟨500, "Internal Server Error", some []⟩)).delegateHistory = [] ∧
    (fetchDelegateHistoryStep
      (⟨[⟨"tx1", "100", "t1", "1.000000", true⟩], false, none, JSNum.num 1, [],
        true⟩ : HistoryState)
      (some "stake1u9other") (some 450)
      (NetResult.ok ⟨500, "Internal Server Error", some []⟩)).error =
      some "API request failed: 500 Internal Server Error" ∧
    renderHistory (fetchDelegateHistoryStep
      (⟨[⟨"tx1", "100", "t1", "1.000000", true⟩], false, none, JSNum.num 1, [],
        true⟩ : HistoryState)
      (some "stake1u9other") (some 450)
      (NetResult.ok ⟨500, "Internal Server Error", some []⟩)) =
      HistoryView.errorView "API request failed: 500 Internal Server Error" ∧
    HistoryView.errorView "API request failed: 500 Internal Server Error" ≠
      HistoryView.content [⟨"tx1", "100", "t1", "1.000000", true⟩]
        (JSNum.num 1) [] := by
  refine ⟨by decide, by decide, by decide, by decide⟩

/-- C7: a 404 ("not found") from the transaction listing yields the empty
item list with total 0 and records no error; any other non-ok response is
recorded as a fetch error whose message carries the provider's status
code (`API request failed: <status> <statusText>`). -/
theorem fetchTransactions_notFound_and_error (st : HistoryState) (addr : String)
    (r : TxPageResponse) (detail : String → TxDetail) (locale : ℤ → String) :
    (r.status = 404 →
      (fetchTransactionsStep st (some addr) (NetResult.ok r) detail locale).transactions = [] ∧
      (fetchTransactionsStep st (some addr) (NetResult.ok r) detail locale).totalTransactions =
        JSNum.num 0 ∧
      (fetchTransactionsStep st (some addr) (NetResult.ok r) detail locale).error = none) ∧
    (respOk r.status = false → r.status ≠ 404 →
      (fetchTransactionsStep st (some addr) (NetResult.ok r) detail locale).error =
        some ("API request failed: " ++ natToString r.status ++ " " ++ r.statusText)) := by
  constructor
  · intro h404
    refine ⟨?_, ?_, ?_⟩ <;> simp [fetchTransactionsStep, h404]
  · intro hok h404
    simp [fetchTransactionsStep, h404, hok]

/-- C7, witness: a concrete 404 response (empty result, no error) and a
concrete 500 response (error carrying the status code). -/
theorem fetchTransactions_notFound_and_error_w :
    ((404 : Nat) = 404 ∧
      (fetchTransactionsStep (⟨[], false, none, JSNum.num 0, [], false⟩ : HistoryState)
        (some "addr1example") (NetResult.ok ⟨404, "Not Found", none, none⟩)
        (fun _ => ⟨0, "0"⟩) (fun _ => "")).transactions = [] ∧
      (fetchTransactionsStep (⟨[], false, none, JSNum.num 0, [], false⟩ : HistoryState)
        (some "addr1example") (NetResult.ok ⟨404, "Not Found", none, none⟩)
        (fun _ => ⟨0, "0"⟩) (fun _ => "")).totalTransactions = JSNum.num 0 ∧
      (fetchTransactionsStep (⟨[], false, none, JSNum.num 0, [], false⟩ : HistoryState)
        (some "addr1example") (NetResult.ok ⟨404, "Not Found", none, none⟩)
        (fun _ => ⟨0, "0"⟩) (fun _ => "")).error = none) ∧
    (respOk 500 = false ∧ (500 : Nat) ≠ 404 ∧
      (fetchTransactionsStep (⟨[], false, none, JSNum.num 0, [], false⟩ : HistoryState)
        (some "addr1example") (NetResult.ok ⟨500, "Server Error", some [], none⟩)
        (fun _ => ⟨0, "0"⟩) (fun _ => "")).error =
        some ("API request failed: " ++ natToString 500 ++ " " ++ "Server Error")) := by
  refine ⟨⟨rfl, ?_⟩, ⟨by decide, by decide, ?_⟩⟩
  · exact (fetchTransactions_notFound_and_error _ "addr1example" _ _ _).1 rfl
  · exact (fetchTransactions_notFound_and_error _ "addr1example" _ _ _).2
      (by decide) (by decide)

/-- C8: the page count is `Math.max(1, Math.ceil(total / 10))`, i.e. the
ceiling of `total / pageSize` with a minimum of one page, for every
non-negative total; for a total of 23 it is 3; and an ok response for a
page beyond the last (empty body) yields no items while the reported total
(23, from the pagination header) is kept. -/
theorem totalPages_ceil_min_one :
    (∀ total : Nat, totalPages (JSNum.num total) =
      JSNum.num ((max 1 ⌈(total : ℚ) / 10⌉ : ℤ) : ℚ)) ∧
    totalPages (JSNum.num 23) = JSNum.num 3 ∧
    (∀ (st : HistoryState) (addr : String) (detail : String → TxDetail)
      (locale : ℤ → String),
      (fetchTransactionsStep st (some addr)
        (NetResult.ok ⟨200, "OK", some [], some "23"⟩) detail locale).transactions = [] ∧
      (fetchTransactionsStep st (some addr)
        (NetResult.ok ⟨200, "OK", some [], some "23"⟩) detail locale).totalTransactions =
        JSNum.num 23) := by
  have hmain : ∀ total : Nat, totalPages (JSNum.num total) =
      JSNum.num ((max 1 ⌈(total : ℚ) / 10⌉ : ℤ) : ℚ) := by
    intro total
    have h10 : ((ITEMS_PER_PAGE : ℚ)) = 10 := by norm_num [ITEMS_PER_PAGE]
    simp only [totalPages, h10, jsDiv, jsCeil, jsMax]
    rw [if_neg (by norm_num)]
    simp only [jsCeil, jsMax, JSNum.num.injEq]
    rw [Int.cast_max]
    simp
  refine ⟨hmain, ?_, ?_⟩
  · have h10 : ((ITEMS_PER_PAGE : ℚ)) = 10 := by norm_num [ITEMS_PER_PAGE]
    simp only [totalPages, h10, jsDiv]
    rw [if_neg (by norm_num : ¬(10 : ℚ) = 0)]
    simp only [jsCeil, jsMax, JSNum.num.injEq]
    rw [show ⌈(23 : ℚ) / 10⌉ = 3 by rw [Int.ceil_eq_iff]; norm_num]
    norm_num
  · intro st addr detail locale
    have h23 : jsParseInt10 "23" = JSNum.num 23 := by decide
    constructor <;> simp [fetchTransactionsStep, respOk, h23]

/-- C10 (amended): for a maximum length of at least 2, a short address is
returned unchanged and a long one is truncated to its first `⌊m / 2⌋`
characters, the literal `"..."`, and its last `⌊m / 2⌋` characters. (For
`m < 2` the trailing `slice(-m / 2)` of the source receives `-0` and
degenerates to the whole address, see the counterexample.) -/
theorem formatAddress_spec (a : String) (m : Nat) (hm : 2 ≤ m) :
    (a.data.length ≤ m → formatAddress a m = a) ∧
    (m < a.data.length →
      formatAddress a m =
        String.mk (a.data.take (m / 2)) ++ "..." ++
          String.mk (a.data.drop (a.data.length - m / 2))) := by
  constructor
  · intro h
    simp only [formatAddress]
    rw [if_pos h]
  · intro h
    simp only [formatAddress]
    rw [if_neg (by omega), if_neg (by omega : ¬ m / 2 = 0)]

/-- C10, witness: a 25-character address with the default maximum length
16 keeps its first 8 and last 8 characters around the ellipsis. -/
theorem formatAddress_spec_w :
    (2 ≤ 16 ∧ (16 : Nat) < ("addr1qyu5zmg7l5td593d2ks5" : String).data.length) ∧
    formatAddress "addr1qyu5zmg7l5td593d2ks5" 16 = "addr1qyu...593d2ks5" := by
  refine ⟨⟨by norm_num, by decide⟩, ?_⟩
  have h := (formatAddress_spec "addr1qyu5zmg7l5td593d2ks5" 16 (by norm_num)).2 (by decide)
  rw [h]
  decide

/-- C10, counterexample to the claim as stated: at maximum length 1 the
claim predicts first 0 characters ++ "..." ++ last 0 characters, i.e.
`"..."`, but the source's `slice(-0.5)` truncates to `-0` and returns the
whole address, giving `"...abcde"`. -/
theorem formatAddress_cex :
    formatAddress "abcde" 1 = "...abcde" ∧
    ("...abcde" : String) ≠ "" ++ "..." ++ "" := by
  refine ⟨by decide, by decide⟩
